import Mathlib

/-!
# Verification of the s3fs lazy ranged object reader

Shallow embedding of the reader state machine in `obj.go` of the s3fs
repository (package `s3fs`): the `object` struct, its `Read` / `Seek` /
`Close` / `Stat` methods, the fetch primitives `dl` / `fillChunk`, the
response mergers `parseFullResponse` / `parsePartialResponse`, the
content-range parser `parseContentRange`, and the request-shaping of the
two store-client adapters (`s3Client.getObject`, `blobClient.getObject`).

Modelling conventions:
* Go byte strings are `List Nat` (one `Nat` per byte, each < 256 in
  practice; arithmetic on byte values is on `Nat`).
* `int` / `int64` fields are `Int` (no claim involves machine overflow;
  all offsets in play are small and non-negative).
* `time.Time` is a `Nat` tick count; the Go zero `time.Time` is `0`
  (`IsZero` becomes `= 0`, `Equal` becomes `=`).
* A response body `io.ReadCloser` is the list of bytes that draining it
  yields, plus a flag `bodyErr`: `io.Copy` appends `body` to the buffer
  and then fails iff `bodyErr` is set (a mid-stream read failure delivers
  the bytes read so far and then the error, which is how `io.Copy`
  behaves: it writes everything received before the error).
* The store client is a function from (key, offset, count) to either an
  opaque error code (`Nat`; the reader never inspects it) or a response,
  mirroring the Go `client` interface.  Every operation that can hit the
  network also returns the list of `getObject` calls it issued, so that
  "issues no fetch" is a statement about the code, not a convention.
-/

/-- Byte strings: Go `string` / `[]byte` as a list of byte values. -/
abbrev ByteStr := List Nat

/-- Errors the reader code can produce.  `client` wraps the opaque error
returned by the store client (propagated unchanged by the Go code);
`copyErr` is an `io.Copy` failure while draining a body; `parseRange` is
the `fmt.Errorf("parse content-range: ...")` failure;
`modTimeChanged` is the `fmt.Errorf("Last-Modified changed, ...")`
consistency failure; the last two are `Seek`'s errors. -/
inductive Err where
  | client (code : Nat)
  | copyErr
  | parseRange
  | modTimeChanged (before now : Nat)
  | invalidWhence
  | negativePosition
deriving DecidableEq, Repr

/-- `getObjectResponse` from obj.go: body stream (with possible
mid-stream failure), `ContentLength`, optional `Content-Range` header,
`Last-Modified` timestamp. -/
structure getObjectResponse where
  body : List Nat
  bodyErr : Bool
  contentLength : Int
  contentRange : Option ByteStr
  lastModified : Nat
deriving DecidableEq, Repr

/-- A record of one `getObject` call: (key, offset, count) as passed to
the `client` interface. -/
abbrev Fetch := ByteStr × Int × Int

/-- The `client` interface of obj.go: `getObject(ctx, key, offset,
count)`.  The context is dropped (it is only threaded through to the
SDK).  Errors are opaque codes. -/
def Client := ByteStr → Int → Int → Except Nat getObjectResponse

/-- The `object` struct of obj.go.  `buf` is the `bytes.Buffer` contents
(the code only appends via `io.Copy` and reads via `Bytes()`/`Len()`);
`bufLen` is the configured chunk size; `dlOffset` the download cursor;
`rOffset` the read cursor; `modTime = 0` is Go's zero `time.Time`. -/
structure object where
  buf : List Nat
  bufLen : Int
  name : ByteStr
  dlOffset : Int
  size : Int
  modTime : Nat
  rOffset : Int
  completelyLoaded : Bool
deriving DecidableEq, Repr

/-- A fresh `object` as built by `awsS3.OpenWithContext` /
`azBlobFs.OpenWithContext` / the `ReadFile` paths: only `client`,
`bufLen` and `name` are set, everything else is the Go zero value. -/
def newObject (bufLen : Int) (name : ByteStr) : object :=
  { buf := [], bufLen := bufLen, name := name, dlOffset := 0, size := 0,
    modTime := 0, rOffset := 0, completelyLoaded := false }

/-! ## The content-range parser

`parseContentRange` in obj.go is `fmt.Sscanf(*s, "bytes %d-%d/%d", ...)`
with `ok = (n == 3 && err == nil)`.  We model `Sscanf` on this fixed
format faithfully, per the documented scanning semantics:
a literal character in the format consumes exactly that input character;
the single space after `bytes` is a run of format spaces, which consumes
as many input spaces as possible and must consume at least one (or hit
end of input, in which case the following `%d` fails); each `%d` first
skips input spaces, then reads an optional sign and a non-empty run of
ASCII decimal digits, stopping at the first non-digit; `Sscanf` does not
require the input to be fully consumed, so trailing bytes after the
third integer are ignored. -/

/-- Space class used by `fmt` scanning: Unicode white space except
newline; for the byte values relevant here: tab, vertical tab, form
feed, carriage return, space. -/
def isSpaceB (b : Nat) : Bool := b = 9 || b = 11 || b = 12 || b = 13 || b = 32

/-- ASCII decimal digit byte. -/
def isDigitB (b : Nat) : Bool := 48 ≤ b && b ≤ 57

/-- Drop leading scan-spaces (what a `%d` verb skips). -/
def dropSpacesB : ByteStr → ByteStr
  | [] => []
  | b :: bs => if isSpaceB b then dropSpacesB bs else b :: bs

/-- Consume a maximal run of ASCII digits, accumulating their value. -/
def scanDigits (acc : Nat) : ByteStr → Nat × ByteStr
  | [] => (acc, [])
  | b :: bs =>
    if isDigitB b then scanDigits (acc * 10 + (b - 48)) bs else (acc, b :: bs)

/-- Sign-and-digits part of the `%d` verb, after space skipping:
optional `+` (43) / `-` (45) sign, then at least one digit; stops at the
first non-digit. -/
def scanIntTok : ByteStr → Option (Int × ByteStr)
  | [] => none
  | b :: bs =>
    if b = 45 ∨ b = 43 then
      match bs with
      | [] => none
      | d :: _ =>
        if isDigitB d then
          let (v, r) := scanDigits 0 bs
          some (if b = 45 then -(v : Int) else (v : Int), r)
        else none
    else if isDigitB b then
      let (v, r) := scanDigits 0 (b :: bs)
      some ((v : Int), r)
    else none

/-- The `%d` verb of `fmt.Sscanf`: skip spaces, then sign and digits. -/
def scanIntB (st : ByteStr) : Option (Int × ByteStr) :=
  scanIntTok (dropSpacesB st)

/-- Strip an exact byte-literal prefix (literal characters in a scan
format must match the input exactly). -/
def stripPre : ByteStr → ByteStr → Option ByteStr
  | [], s => some s
  | _ :: _, [] => none
  | p :: ps, b :: bs => if b = p then stripPre ps bs else none

/-- Consume exactly the byte `b` (a literal format character). -/
def expectByte (b : Nat) (st : ByteStr) : Option ByteStr :=
  match st with
  | [] => none
  | c :: r => if c = b then some r else none

/-- Consume the format's space run after `"bytes"`: it must consume at
least one input space (runs of format spaces away from a newline must
match at least one space unless at end of input; at end of input the
following `%d` fails anyway, so `none` is correct there too). -/
def expectSpace (st : ByteStr) : Option ByteStr :=
  match st with
  | [] => none
  | b :: r => if isSpaceB b then some r else none

/-- `parseContentRange` of obj.go: `fmt.Sscanf(*s, "bytes %d-%d/%d")`.
`none` is Go's `ok = false` (nil string, scan error, or fewer than three
items scanned); `some (start, end, total)` is `ok = true`.  Note that
`Sscanf` does not require the input to be exhausted: bytes left over
after the third integer are ignored. -/
def parseContentRange (s : Option ByteStr) : Option (Int × Int × Int) := do
  let bs ← s
  let r ← stripPre [98, 121, 116, 101, 115] bs -- literal "bytes"
  let r ← expectSpace r
  let (a, r) ← scanIntB r
  let r ← expectByte 45 r -- literal '-'
  let (e, r) ← scanIntB r
  let r ← expectByte 47 r -- literal '/'
  let (n, _) ← scanIntB r -- trailing input ignored
  some (a, e, n)

/-! ## Response mergers -/

/-- `object.parseFullResponse` of obj.go.  The Go `switch` evaluates its
cases in source order with `default` last: if `obj.modTime.IsZero()` it
records the response timestamp; otherwise, if the timestamps differ it
returns the Last-Modified-changed error before touching the buffer;
otherwise the `default: fallthrough` re-assigns the (equal) timestamp.
Then `io.Copy` drains the body into `buf` (on a drain error the copied
prefix stays in the buffer), and on success `size` is set from
`ContentLength` and `completelyLoaded` to true.  `dlOffset` is not
touched. -/
def object.parseFullResponse (obj : object) (rsp : getObjectResponse) :
    object × Option Err :=
  if obj.modTime ≠ 0 ∧ obj.modTime ≠ rsp.lastModified then
    (obj, some (.modTimeChanged obj.modTime rsp.lastModified))
  else
    let o := { obj with modTime := rsp.lastModified, buf := obj.buf ++ rsp.body }
    if rsp.bodyErr then
      (o, some .copyErr)
    else
      ({ o with size := rsp.contentLength, completelyLoaded := true }, none)

/-- `object.parsePartialResponse` of obj.go: unconditionally record the
response timestamp, drain the body into `buf` (failing after the copied
prefix on a drain error), then parse the `Content-Range` header; on
parse failure return the error (body bytes stay in the buffer); on
success set `size`, `dlOffset := end + 1`, and
`completelyLoaded := (end == size - 1)`. -/
def object.parsePartialResponse (obj : object) (rsp : getObjectResponse) :
    object × Option Err :=
  let o := { obj with modTime := rsp.lastModified, buf := obj.buf ++ rsp.body }
  if rsp.bodyErr then
    (o, some .copyErr)
  else
    match parseContentRange rsp.contentRange with
    | none => (o, some .parseRange)
    | some (_, e, size) =>
      ({ o with size := size, dlOffset := e + 1,
                completelyLoaded := decide (e = size - 1) }, none)

/-! ## Fetch primitives -/

/-- `object.dl` of obj.go: whole-object fetch,
`client.getObject(ctx, name, -1, 0)`, merged by `parseFullResponse`. -/
def object.dl (obj : object) (c : Client) : object × Option Err × List Fetch :=
  match c obj.name (-1) 0 with
  | .error code => (obj, some (.client code), [(obj.name, -1, 0)])
  | .ok rsp =>
    let (o, e) := obj.parseFullResponse rsp
    (o, e, [(obj.name, -1, 0)])

/-- `object.fillChunk` of obj.go.  With `bufLen == 0` it immediately
delegates to `dl`.  Otherwise it requests the range
`[dlOffset, dlOffset + bufLen - 1]` (or `[dlOffset, size - 1]` when
`full`); on a client error it falls back to `dl` whenever
`dlOffset == 0` (the code does not inspect which error occurred) and
propagates the error unchanged otherwise; on success it merges via
`parsePartialResponse`. -/
def object.fillChunk (obj : object) (c : Client) (full : Bool) :
    object × Option Err × List Fetch :=
  if obj.bufLen = 0 then
    obj.dl c
  else
    let e := if full then obj.size - 1 else obj.dlOffset + obj.bufLen - 1
    match c obj.name obj.dlOffset e with
    | .error code =>
      if obj.dlOffset = 0 then
        let (o, er, t) := obj.dl c
        (o, er, (obj.name, obj.dlOffset, e) :: t)
      else
        (obj, some (.client code), [(obj.name, obj.dlOffset, e)])
    | .ok rsp =>
      let (o, er) := obj.parsePartialResponse rsp
      (o, er, [(obj.name, obj.dlOffset, e)])

/-! ## The fs.File methods -/

/-- Result of one `Read` call: `eof` is `(0, io.EOF)`; `err e` is
`(0, e)`; `ok bs` is `(len bs, nil)` with `bs` the bytes copied into the
caller's destination. -/
inductive ReadRet where
  | eof
  | err (e : Err)
  | ok (bs : List Nat)
deriving DecidableEq, Repr

/-- `object.Read` of obj.go.  `blen` is `len(b)`, the caller's
destination size.  Returns the updated object, the result, and the
fetches issued.  The copy step is
`n := copy(b, obj.buf.Bytes()[obj.rOffset:])`, i.e. it copies
`min blen (buf.length - rOffset)` bytes starting at `rOffset`, then
advances `rOffset` by `n`. -/
def object.Read (obj : object) (c : Client) (blen : Nat) :
    object × ReadRet × List Fetch :=
  if obj.rOffset ≥ obj.size then
    (obj, .eof, [])
  else
    let step : object × Option Err × List Fetch :=
      if ¬obj.completelyLoaded then
        if obj.rOffset > obj.dlOffset then
          obj.fillChunk c true
        else if (obj.buf.length : Int) - obj.rOffset < (blen : Int) then
          obj.fillChunk c false
        else
          (obj, none, [])
      else
        (obj, none, [])
    match step with
    | (o, some e, t) => (o, .err e, t)
    | (o, none, t) =>
      let copied := (o.buf.drop o.rOffset.toNat).take blen
      ({ o with rOffset := o.rOffset + copied.length }, .ok copied, t)

/-- `object.Seek` of obj.go.  `whence` is the Go `io` constant
(`SeekStart = 0`, `SeekCurrent = 1`, `SeekEnd = 2`); anything else is
the invalid-whence error.  A negative resulting offset is rejected
before any state change.  `Seek` contains no `getObject` call, so its
fetch trace is definitionally empty. -/
def object.Seek (obj : object) (offset : Int) (whence : Nat) :
    object × Except Err Int × List Fetch :=
  let newOffset? : Except Err Int :=
    if whence = 0 then .ok offset
    else if whence = 1 then .ok (obj.rOffset + offset)
    else if whence = 2 then .ok (obj.size + offset)
    else .error .invalidWhence
  match newOffset? with
  | .error e => (obj, .error e, [])
  | .ok n =>
    if n < 0 then (obj, .error .negativePosition, [])
    else ({ obj with rOffset := n }, .ok n, [])

/-- `object.Close` of obj.go: `func (o *object) Close() error { return nil }`. -/
def object.Close (obj : object) : object × Option Err := (obj, none)

/-- `object.Stat` of obj.go returns the object itself as its
`fs.FileInfo` with a nil error; the `FileInfo` projections the claims
mention are `Name`, `Size`, `ModTime`. -/
def object.Stat (obj : object) : object × (ByteStr × Int × Nat) × Option Err :=
  (obj, (obj.name, obj.size, obj.modTime), none)

/-- `awsS3.OpenWithContext` / `azBlobFs.OpenWithContext`: build a fresh
object and run `fillChunk(false)`; the object is returned together with
the error. -/
def OpenWithContext (c : Client) (bufLen : Int) (name : ByteStr) :
    object × Option Err × List Fetch :=
  (newObject bufLen name).fillChunk c false

/-- `awsS3.ReadFileWithContext` / `azBlobFs.ReadFileWithContext`: build
a fresh object, run `dl`, and return `obj.buf.Bytes()` on success. -/
def ReadFileWithContext (c : Client) (bufLen : Int) (name : ByteStr) :
    Except Err (List Nat) × List Fetch :=
  let (o, er, t) := (newObject bufLen name).dl c
  match er with
  | some e => (.error e, t)
  | none => (.ok o.buf, t)

/-! ## Adapter request-shaping (claim C6)

The byte range each backend adapter's provider request denotes, embedded
from `s3Client.getObject` and `blobClient.getObject` in obj.go together
with the documented SDK semantics of the request field each one fills.
-/

/-- The set of object bytes a provider request denotes. -/
inductive RangeSpec where
  | whole
  | fromOffset (o : Int)
  | interval (lo hi : Int)
deriving DecidableEq, Repr

/-- `s3Client.getObject`: when `offset > -1` it sets the HTTP header
`Range: bytes=<offset>-<count>`, which denotes the inclusive interval
`[offset, count]`; otherwise no Range header, the whole object. -/
def s3ClientRange (offset count : Int) : RangeSpec :=
  if offset > -1 then .interval offset count else .whole

/-- `blobClient.getObject`: when `offset > -1` it fills
`blob.HTTPRange{Offset: offset, Count: count}`.  Per the Azure SDK,
`Count` is the number of bytes to retrieve, so a non-zero struct denotes
`[Offset, Offset + Count - 1]`; `Count = 0` (`CountToEnd`) denotes all
bytes from `Offset`; the all-zero struct (also what the `offset <= -1`
branch passes) emits no range header at all, the whole blob. -/
def blobClientRange (offset count : Int) : RangeSpec :=
  if offset > -1 then
    if offset = 0 ∧ count = 0 then .whole
    else if count = 0 then .fromOffset offset
    else .interval offset (offset + count - 1)
  else .whole

/-! ## An honest store, for the behavioural claims

`honestClient C t` models a well-behaved store holding one object of
content `C` with last-modified tick `t ≠ 0`, following the HTTP range
semantics S3 implements (and the fake S3 backend of the repository's
tests): a ranged GET whose first byte position is at or past the object
length fails with 416 range-not-satisfiable (in particular every ranged
GET on an empty object); otherwise the end position is clamped to the
last byte and the response carries `Content-Range: bytes o-e/len` ; a
whole-object GET returns everything with no Content-Range header. -/

/-- Decimal rendering of a `Nat`, most significant digit first. -/
def renderNat (n : Nat) : ByteStr :=
  if h : n < 10 then [48 + n]
  else renderNat (n / 10) ++ [48 + n % 10]
decreasing_by exact Nat.div_lt_self (by omega) (by omega)

/-- Render `"bytes o-e/n"` as a byte string. -/
def renderContentRange (o e n : Nat) : ByteStr :=
  [98, 121, 116, 101, 115, 32] ++ renderNat o ++ [45] ++ renderNat e
    ++ [47] ++ renderNat n

/-- The 416 range-not-satisfiable error code of the honest store. -/
def rangeNotSatisfiable : Nat := 416

/-- Honest store client for a single object of content `C`, last
modified at tick `t`. -/
def honestClient (C : List Nat) (t : Nat) : Client := fun _ offset count =>
  if 0 ≤ offset then
    if (C.length : Int) ≤ offset ∨ count < offset then
      .error rangeNotSatisfiable
    else
      let o := offset.toNat
      let e := min count.toNat (C.length - 1)
      .ok { body := (C.drop o).take (e + 1 - o), bodyErr := false,
            contentLength := (e : Int) + 1 - (o : Int),
            contentRange := some (renderContentRange o e C.length),
            lastModified := t }
  else
    .ok { body := C, bodyErr := false, contentLength := (C.length : Int),
          contentRange := none, lastModified := t }

/-- A store that fails every ranged request with a generic not-found
error (code 404) yet serves whole-object requests: it distinguishes the
fallback path of a first-fetch failure that is not a 416. -/
def notFoundOnRanged : Client := fun _ offset _ =>
  if 0 ≤ offset then .error 404
  else .ok { body := [7], bodyErr := false, contentLength := 1,
             contentRange := none, lastModified := 3 }

/-- Reading to end-of-stream with `io.ReadAll`-style iteration: call
`Read` with a `blen`-byte destination until it reports `eof`,
concatenating the copied chunks.  `none` means a `Read` error or fuel
exhaustion. -/
def readLoop (c : Client) (blen : Nat) : Nat → object → object × Option (List Nat)
  | 0, obj => (obj, none)
  | fuel + 1, obj =>
    match obj.Read c blen with
    | (o, .eof, _) => (o, some [])
    | (o, .err _, _) => (o, none)
    | (o, .ok bs, _) =>
      match readLoop c blen fuel o with
      | (o2, some rest) => (o2, some (bs ++ rest))
      | (o2, none) => (o2, none)

/-- The last byte index an honest store returns for the ranged request
`fillChunk(false)` issues from state `s`: the requested inclusive end
`dlOffset + bufLen - 1`, clamped to the object's last byte. -/
def chunkEnd (C : List Nat) (s : object) : Nat :=
  min (s.dlOffset + s.bufLen - 1).toNat (C.length - 1)

/-- Invariant of a reader over content `C` (timestamp `t`, chunk size
`cs`) reachable by open and sequential reads: the buffer is exactly the
downloaded prefix, `size` is the object length, the read cursor stays
within the downloaded prefix, and the completion flag tracks whether the
prefix is the whole object. -/
structure ReaderInv (C : List Nat) (t : Nat) (cs : Int) (s : object) : Prop where
  hbuf : s.buf = C.take s.dlOffset.toNat
  hsize : s.size = (C.length : Int)
  hr0 : 0 ≤ s.rOffset
  hrd : s.rOffset ≤ s.dlOffset
  hdl : s.dlOffset ≤ (C.length : Int)
  hcomp : s.completelyLoaded = decide (s.dlOffset = (C.length : Int))
  hcs : s.bufLen = cs

/-! ## Round-trip lemmas for the content-range parser -/

theorem renderNat_cons (n : Nat) :
    ∃ b bs, renderNat n = b :: bs ∧ isDigitB b = true := by
  induction n using renderNat.induct with
  | case1 n h =>
    refine ⟨48 + n, [], ?_, ?_⟩
    · unfold renderNat; simp [h]
    · simp [isDigitB]; omega
  | case2 n h ih =>
    obtain ⟨b, bs, hbs, hdig⟩ := ih
    refine ⟨b, bs ++ [48 + n % 10], ?_, hdig⟩
    unfold renderNat
    simp [h, hbs]

theorem scanDigits_renderNat (n : Nat) (acc : Nat) (rest : ByteStr) :
    scanDigits acc (renderNat n ++ rest)
      = scanDigits (acc * 10 ^ (renderNat n).length + n) rest := by
  induction n using renderNat.induct generalizing acc rest with
  | case1 n h =>
    have hd : isDigitB (48 + n) = true := by simp [isDigitB]; omega
    unfold renderNat
    simp [h, scanDigits, hd]
  | case2 n h ih =>
    have hd : isDigitB (48 + n % 10) = true := by
      simp [isDigitB]; omega
    have hmod : 48 + n % 10 - 48 = n % 10 := by omega
    conv_lhs => rw [renderNat, dif_neg h]
    rw [List.append_assoc, ih, List.cons_append, scanDigits, if_pos hd,
      List.nil_append, hmod]
    have hlen : (renderNat n).length = (renderNat (n / 10)).length + 1 := by
      conv_lhs => rw [renderNat, dif_neg h]
      simp
    rw [hlen, pow_succ]
    generalize (10 : Nat) ^ (renderNat (n / 10)).length = k
    have hak : acc * (k * 10) = acc * k * 10 := by ring
    rw [hak]
    congr 1
    omega

theorem scanDigits_stop (acc : Nat) (rest : ByteStr)
    (h : ∀ b bs, rest = b :: bs → isDigitB b = false) :
    scanDigits acc rest = (acc, rest) := by
  cases rest with
  | nil => rfl
  | cons b bs => simp [scanDigits, h b bs rfl]

theorem digit_not_space {b : Nat} (h : isDigitB b = true) : isSpaceB b = false := by
  simp [isDigitB] at h
  simp [isSpaceB]
  omega

theorem scanIntB_renderNat (n : Nat) (rest : ByteStr)
    (h : ∀ b bs, rest = b :: bs → isDigitB b = false) :
    scanIntB (renderNat n ++ rest) = some ((n : Int), rest) := by
  obtain ⟨b, bs, hbs, hdig⟩ := renderNat_cons n
  have hb48 : 48 ≤ b ∧ b ≤ 57 := by simpa [isDigitB] using hdig
  have hdrop : dropSpacesB (renderNat n ++ rest) = b :: (bs ++ rest) := by
    rw [hbs, List.cons_append, dropSpacesB, digit_not_space hdig]
    simp
  have hscan : scanDigits 0 (b :: (bs ++ rest)) = (n, rest) := by
    rw [← List.cons_append, ← hbs, scanDigits_renderNat,
      scanDigits_stop _ _ h]
    simp
  have h45 : ¬(b = 45 ∨ b = 43) := by omega
  rw [scanIntB, hdrop]
  simp only [scanIntTok, if_neg h45, if_pos hdig, hscan]

theorem expectSpace_cons (r : ByteStr) : expectSpace (32 :: r) = some r := by
  simp [expectSpace, isSpaceB]

theorem expectDash (r : ByteStr) : expectByte 45 (45 :: r) = some r := by
  simp [expectByte]

theorem expectSlash (r : ByteStr) : expectByte 47 (47 :: r) = some r := by
  simp [expectByte]

theorem stripPre_bytes (r : ByteStr) :
    stripPre [98, 121, 116, 101, 115] (98 :: 121 :: 116 :: 101 :: 115 :: r)
      = some r := by
  simp [stripPre]

/-- Round trip: parsing a well-formed rendered content-range header
recovers the three integers exactly. -/
theorem parseContentRange_render (o e n : Nat) :
    parseContentRange (some (renderContentRange o e n))
      = some ((o : Int), (e : Int), (n : Int)) := by
  have h45 : ∀ b bs, (45 :: (renderNat e ++ [47] ++ renderNat n)) = b :: bs →
      isDigitB b = false := by
    intro b bs hb
    cases hb
    rfl
  have h47 : ∀ b bs, (47 :: renderNat n) = b :: bs → isDigitB b = false := by
    intro b bs hb
    cases hb
    rfl
  have hnil : ∀ b bs, ([] : ByteStr) = b :: bs → isDigitB b = false := by
    intro b bs hb
    cases hb
  rw [parseContentRange]
  rw [renderContentRange]
  simp only [List.cons_append, List.nil_append, Option.bind_eq_bind,
    Option.some_bind, stripPre_bytes, expectSpace_cons]
  rw [show renderNat o ++ [45] ++ renderNat e ++ [47] ++ renderNat n
      = renderNat o ++ (45 :: (renderNat e ++ [47] ++ renderNat n)) by
    simp [List.append_assoc]]
  rw [scanIntB_renderNat o _ h45]
  simp only [Option.some_bind, expectDash]
  rw [show renderNat e ++ [47] ++ renderNat n
      = renderNat e ++ (47 :: renderNat n) by simp [List.append_assoc]]
  rw [scanIntB_renderNat e _ h47]
  simp only [Option.some_bind, expectSlash]
  rw [show renderNat n = renderNat n ++ [] by simp]
  rw [scanIntB_renderNat n _ hnil]
  rfl

/-! ## Helper characterizations -/

theorem Seek_eq (obj : object) (off : Int) (whence : Nat) :
    obj.Seek off whence =
      if whence = 0 then
        (if off < 0 then (obj, .error .negativePosition, [])
         else ({ obj with rOffset := off }, .ok off, []))
      else if whence = 1 then
        (if obj.rOffset + off < 0 then (obj, .error .negativePosition, [])
         else ({ obj with rOffset := obj.rOffset + off },
               .ok (obj.rOffset + off), []))
      else if whence = 2 then
        (if obj.size + off < 0 then (obj, .error .negativePosition, [])
         else ({ obj with rOffset := obj.size + off },
               .ok (obj.size + off), []))
      else (obj, .error .invalidWhence, []) := by
  unfold object.Seek
  by_cases h0 : whence = 0 <;> by_cases h1 : whence = 1 <;>
    by_cases h2 : whence = 2 <;> simp [h0, h1, h2]

theorem Read_at_or_past_size (obj : object) (c : Client) (blen : Nat)
    (h : obj.rOffset ≥ obj.size) : obj.Read c blen = (obj, .eof, []) := by
  rw [object.Read, if_pos h]

/-! ## Claim C8 -/

/-- Claim C8: once `size` is known (any state of the reader after a
successful open), a `Read` issued while `readOffset >= size` returns
zero bytes with end-of-stream (`io.EOF`), issues no fetch, and leaves
every field unchanged; in particular, after a successful `Seek` whose
resulting target is at or past `size`, the very next `Read` immediately
reports end-of-stream without fetching or mutating anything. -/
theorem C8_read_eof (obj : object) (c : Client) (blen : Nat) :
    (obj.rOffset ≥ obj.size → obj.Read c blen = (obj, .eof, [])) ∧
    (∀ off : Int, ∀ whence : Nat, ∀ s' : object, ∀ t : Int, ∀ tr : List Fetch,
      obj.Seek off whence = (s', .ok t, tr) → obj.size ≤ t →
      s'.Read c blen = (s', .eof, [])) := by
  constructor
  · intro h
    exact Read_at_or_past_size obj c blen h
  · intro off whence s' t tr hseek hsz
    have hs' : s' = { obj with rOffset := t } ∧ s'.size = obj.size := by
      rw [Seek_eq] at hseek
      repeat' split at hseek
      all_goals simp at hseek
      all_goals obtain ⟨hs, ht, -⟩ := hseek
      all_goals subst ht
      all_goals exact ⟨hs.symm, by rw [← hs]⟩
    apply Read_at_or_past_size
    rw [hs'.1]
    simpa [hs'.2] using hsz

theorem C8_read_eof_witness :
    ({ buf := [], bufLen := 1, name := [], dlOffset := 0, size := 2,
       modTime := 1, rOffset := 3, completelyLoaded := false } : object).Read
        (honestClient [7, 8] 1) 1
      = ({ buf := [], bufLen := 1, name := [], dlOffset := 0, size := 2,
           modTime := 1, rOffset := 3, completelyLoaded := false }, .eof, []) ∧
    ({ buf := [], bufLen := 1, name := [], dlOffset := 0, size := 2,
       modTime := 1, rOffset := 5, completelyLoaded := false } : object).Read
        (honestClient [7, 8] 1) 1
      = ({ buf := [], bufLen := 1, name := [], dlOffset := 0, size := 2,
           modTime := 1, rOffset := 5, completelyLoaded := false }, .eof, []) := by
  constructor
  · exact (C8_read_eof _ _ _).1 (by decide)
  · exact (C8_read_eof
        { buf := [], bufLen := 1, name := [], dlOffset := 0, size := 2,
          modTime := 1, rOffset := 3, completelyLoaded := false }
        (honestClient [7, 8] 1) 1).2 5 0 _ 5 [] (by rfl) (by decide)

/-! ## Claim C9 -/

/-- Claim C9: `Seek` computes the target as `offset` for `SeekStart`
(0), `readOffset + offset` for `SeekCurrent` (1), `size + offset` for
`SeekEnd` (2); a negative target is rejected with an error and no state
change; otherwise `readOffset` is set to the target, which is returned.
`Seek` never calls the store client (its fetch trace is always empty,
whatever the arguments). -/
theorem C9_seek (obj : object) (offset : Int) (whence : Nat) :
    (whence < 3 →
      (let t := if whence = 0 then offset
                else if whence = 1 then obj.rOffset + offset
                else obj.size + offset
       (t < 0 → obj.Seek offset whence = (obj, .error .negativePosition, [])) ∧
       (0 ≤ t → obj.Seek offset whence
          = ({ obj with rOffset := t }, .ok t, [])))) ∧
    (obj.Seek offset whence).2.2 = [] := by
  constructor
  · intro _
    by_cases h0 : whence = 0 <;> by_cases h1 : whence = 1 <;>
      by_cases h2 : whence = 2 <;>
      constructor <;> intro ht <;>
      simp_all [object.Seek] <;> omega
  · unfold object.Seek
    by_cases h0 : whence = 0 <;> by_cases h1 : whence = 1 <;>
      by_cases h2 : whence = 2 <;>
      simp [h0, h1, h2] <;> split <;> rfl

theorem C9_seek_witness :
    (0 : Nat) < 3 ∧
    ((-1 : Int) < 0 →
      (newObject 1 []).Seek (-1) 0
        = (newObject 1 [], .error .negativePosition, [])) ∧
    ((0 : Int) ≤ 4 →
      (newObject 1 []).Seek 4 0
        = ({ newObject 1 [] with rOffset := 4 }, .ok 4, [])) := by
  have h := (C9_seek (newObject 1 []) (-1) 0).1 (by decide)
  have h2 := (C9_seek (newObject 1 []) 4 0).1 (by decide)
  exact ⟨by decide, fun _ => h.1 (by decide), fun _ => h2.2 (by decide)⟩

/-! ## Claim C10 -/

/-- Claim C10: `Close` always returns nil and mutates no field: the
state it hands back is the very object it was given, so `Read`, `Seek`
and `Stat` behave identically before and after `Close`, and `Close` may
be called any number of times with the same (nil) result. -/
theorem C10_close (obj : object) (c : Client) (blen : Nat) (offset : Int)
    (whence : Nat) :
    obj.Close = (obj, none) ∧
    (obj.Close.1.Read c blen = obj.Read c blen) ∧
    (obj.Close.1.Seek offset whence = obj.Seek offset whence) ∧
    (obj.Close.1.Stat = obj.Stat) ∧
    (obj.Close.1.Close = obj.Close) := by
  exact ⟨rfl, rfl, rfl, rfl, rfl⟩

/-! ## Claim C6 -/

/-- Claim C6 fails on the code: for non-negative offsets the s3 adapter
requests exactly the inclusive interval `[offset, count]`, but the blob
adapter fills Azure's `HTTPRange{Offset, Count}`, whose second field is
a byte count, so `getObject(key, 5, 9)` — which the reader and the s3
adapter treat as the inclusive range `[5, 9]` — makes the blob adapter
request 9 bytes starting at 5, i.e. `[5, 13]`.  Both adapters do agree
on the negative sentinel (whole object, no range).  This contradicts
both the claim and the adapter's own callers (`fillChunk` passes an
inclusive end and `parsePartialResponse` comments that the range is
inclusive), so it is a bug in `blobClient.getObject`. -/
theorem C6_adapter_ranges :
    s3ClientRange 5 9 = .interval 5 9 ∧
    blobClientRange 5 9 = .interval 5 13 ∧
    blobClientRange 5 9 ≠ s3ClientRange 5 9 ∧
    s3ClientRange (-1) 0 = .whole ∧
    blobClientRange (-1) 0 = .whole := by
  refine ⟨by decide, by decide, by decide, by decide, by decide⟩

/-! ## Claim C7 -/

/-- Claim C7 as stated fails on the code: `fmt.Sscanf` does not require
the input string to be exhausted, so the malformed header
`"bytes 1-2/3x"` — whose final field `3x` is not a number — is accepted
with `ok = true` and the values `(1, 2, 3)`, instead of reporting a
parse failure. -/
theorem C7_counterexample :
    parseContentRange
        (some [98, 121, 116, 101, 115, 32, 49, 45, 50, 47, 51, 120])
      = some (1, 2, 3) := by decide

/-- Claim C7, amended: for `0 <= start <= end < total`, parsing the
formatted header `"bytes start-end/total"` recovers `(start, end,
total)` exactly with `ok = true`; a nil string reports `ok = false`, as
do a wrong token count (`"bytes 1-2"`), a missing slash
(`"bytes 1-2 3"`), and a field with no leading digit (`"bytes a-2/3"`);
however trailing bytes after a valid numeric prefix of the final field
are ignored rather than rejected (see the counterexample). -/
theorem C7_parse_roundtrip (start e total : Nat)
    (h1 : start ≤ e) (h2 : e < total) :
    parseContentRange (some (renderContentRange start e total))
        = some ((start : Int), (e : Int), (total : Int)) ∧
    parseContentRange none = none ∧
    parseContentRange (some [98, 121, 116, 101, 115, 32, 49, 45, 50]) = none ∧
    parseContentRange
        (some [98, 121, 116, 101, 115, 32, 49, 45, 50, 32, 51]) = none ∧
    parseContentRange
        (some [98, 121, 116, 101, 115, 32, 97, 45, 50, 47, 51]) = none := by
  exact ⟨parseContentRange_render start e total, by decide, by decide,
    by decide, by decide⟩

theorem C7_parse_roundtrip_witness :
    1 ≤ 2 ∧ 2 < 3 ∧
    parseContentRange (some (renderContentRange 1 2 3))
      = some ((1 : Int), (2 : Int), (3 : Int)) :=
  ⟨by decide, by decide, (C7_parse_roundtrip 1 2 3 (by decide) (by decide)).1⟩

/-! ## Claim C1 -/

/-- Claim C1 fails on the code: a ranged chunk fetch handled by
`parsePartialResponse` performs no last-modified comparison at all.
Here the reader has recorded timestamp 5 from its first fetch, the
response reports timestamp 7, yet the fetch succeeds (`nil` error), the
body is merged into the buffer, and the recorded timestamp is silently
overwritten with 7.  (The header below is `"bytes 1-1/3"`.) -/
theorem C1_counterexample :
    (5 : Nat) ≠ 7 ∧
    (({ buf := [1], bufLen := 1, name := [], dlOffset := 1, size := 3,
        modTime := 5, rOffset := 0, completelyLoaded := false } : object).parsePartialResponse
      { body := [2], bodyErr := false, contentLength := 1,
        contentRange := some [98, 121, 116, 101, 115, 32, 49, 45, 49, 47, 51],
        lastModified := 7 }).2 = none ∧
    (({ buf := [1], bufLen := 1, name := [], dlOffset := 1, size := 3,
        modTime := 5, rOffset := 0, completelyLoaded := false } : object).parsePartialResponse
      { body := [2], bodyErr := false, contentLength := 1,
        contentRange := some [98, 121, 116, 101, 115, 32, 49, 45, 49, 47, 51],
        lastModified := 7 }).1.buf = [1, 2] ∧
    (({ buf := [1], bufLen := 1, name := [], dlOffset := 1, size := 3,
        modTime := 5, rOffset := 0, completelyLoaded := false } : object).parsePartialResponse
      { body := [2], bodyErr := false, contentLength := 1,
        contentRange := some [98, 121, 116, 101, 115, 32, 49, 45, 49, 47, 51],
        lastModified := 7 }).1.modTime = 7 := by decide

/-- Claim C1, amended: only whole-object fetches (`parseFullResponse`)
enforce the consistency guard — with a non-zero recorded timestamp that
differs from the response's, they fail with the Last-Modified-changed
error and leave the state untouched, and when the timestamps agree they
never raise that error.  Ranged chunk fetches
(`parsePartialResponse`) record the response timestamp unconditionally,
merge the body into the buffer, and can only fail with a drain or
content-range-parse error, never the consistency error. -/
theorem C1_consistency_guard (obj : object) (rsp : getObjectResponse) :
    (obj.modTime ≠ 0 → obj.modTime ≠ rsp.lastModified →
      obj.parseFullResponse rsp
        = (obj, some (.modTimeChanged obj.modTime rsp.lastModified))) ∧
    (obj.modTime = rsp.lastModified →
      ∀ e, (obj.parseFullResponse rsp).2 = some e → e = .copyErr) ∧
    ((obj.parsePartialResponse rsp).1.modTime = rsp.lastModified) ∧
    ((obj.parsePartialResponse rsp).1.buf = obj.buf ++ rsp.body) ∧
    (∀ e, (obj.parsePartialResponse rsp).2 = some e →
      e = .copyErr ∨ e = .parseRange) := by
  refine ⟨?_, ?_, ?_, ?_, ?_⟩
  · intro h1 h2
    rw [object.parseFullResponse, if_pos ⟨h1, h2⟩]
  · intro heq e he
    rw [object.parseFullResponse, if_neg (by simp [heq])] at he
    dsimp only at he
    split at he
    · simpa using he.symm
    · simp at he
  · simp only [object.parsePartialResponse]
    split
    · rfl
    · split
      · rfl
      · rfl
  · simp only [object.parsePartialResponse]
    split
    · rfl
    · split
      · rfl
      · rfl
  · intro e he
    simp only [object.parsePartialResponse] at he
    split at he
    · simp at he
      exact Or.inl he.symm
    · split at he
      · simp at he
        exact Or.inr he.symm
      · simp at he

theorem C1_consistency_guard_witness :
    (5 : Nat) ≠ 0 ∧ (5 : Nat) ≠ 7 ∧
    ({ buf := [], bufLen := 1, name := [], dlOffset := 0, size := 0,
       modTime := 5, rOffset := 0, completelyLoaded := false } : object).parseFullResponse
        { body := [9], bodyErr := false, contentLength := 1,
          contentRange := none, lastModified := 7 }
      = ({ buf := [], bufLen := 1, name := [], dlOffset := 0, size := 0,
           modTime := 5, rOffset := 0, completelyLoaded := false },
         some (.modTimeChanged 5 7)) := by
  refine ⟨by decide, by decide, ?_⟩
  exact (C1_consistency_guard
    { buf := [], bufLen := 1, name := [], dlOffset := 0, size := 0,
      modTime := 5, rOffset := 0, completelyLoaded := false }
    { body := [9], bodyErr := false, contentLength := 1,
      contentRange := none, lastModified := 7 }).1 (by decide) (by decide)

/-! ## Claim C2 -/

/-- Claim C2 fails on the code: `parsePartialResponse` drains the body
into the buffer *before* looking at the Content-Range header, so a
response with a missing (or malformed) header is rejected with the
parse error only after the buffer has already been extended and the
recorded timestamp overwritten.  The fresh reader's empty buffer ends
up holding the body byte 9 although the fetch failed. -/
theorem C2_counterexample :
    (((newObject 1 []).parsePartialResponse
        { body := [9], bodyErr := false, contentLength := 1,
          contentRange := none, lastModified := 3 }).2 = some .parseRange) ∧
    (newObject 1 []).buf = [] ∧
    (((newObject 1 []).parsePartialResponse
        { body := [9], bodyErr := false, contentLength := 1,
          contentRange := none, lastModified := 3 }).1.buf = [9]) ∧
    (newObject 1 []).modTime = 0 ∧
    (((newObject 1 []).parsePartialResponse
        { body := [9], bodyErr := false, contentLength := 1,
          contentRange := none, lastModified := 3 }).1.modTime = 3) := by decide

/-- Claim C2, amended: a store-client failure (when it does not hit the
`dlOffset == 0` whole-object fallback) leaves every field of the reader
exactly as it was, and the `parseFullResponse` consistency rejection
also leaves the state exactly unchanged; but a drain failure or a
missing/malformed content-range in a ranged response leaves the drained
body bytes appended to the buffer and the timestamp overwritten — only
`dlOffset`, `rOffset`, `size` and the completion flag are untouched
there.  The same holds for a drain failure of a whole-object fetch. -/
theorem C2_failure_frame (obj : object) (rsp : getObjectResponse)
    (c : Client) (full : Bool) (code : Nat) :
    (obj.bufLen ≠ 0 → obj.dlOffset ≠ 0 →
      c obj.name obj.dlOffset
          (if full then obj.size - 1 else obj.dlOffset + obj.bufLen - 1)
        = .error code →
      obj.fillChunk c full
        = (obj, some (.client code),
           [(obj.name, obj.dlOffset,
             if full then obj.size - 1
             else obj.dlOffset + obj.bufLen - 1)])) ∧
    ((obj.parsePartialResponse rsp).2 ≠ none →
      (obj.parsePartialResponse rsp).1
        = { obj with modTime := rsp.lastModified,
                     buf := obj.buf ++ rsp.body }) ∧
    ((obj.parseFullResponse rsp).2 = some .copyErr →
      (obj.parseFullResponse rsp).1
        = { obj with modTime := rsp.lastModified,
                     buf := obj.buf ++ rsp.body }) ∧
    (∀ a b, (obj.parseFullResponse rsp).2 = some (.modTimeChanged a b) →
      (obj.parseFullResponse rsp).1 = obj) := by
  refine ⟨?_, ?_, ?_, ?_⟩
  · intro hb hd hc
    rw [object.fillChunk, if_neg hb]
    dsimp only
    rw [hc]
    dsimp only
    rw [if_neg hd]
  · intro hne
    cases hb : rsp.bodyErr with
    | true => simp [object.parsePartialResponse, hb]
    | false =>
      cases hpcr : parseContentRange rsp.contentRange with
      | none => simp [object.parsePartialResponse, hb, hpcr]
      | some v =>
        exfalso
        rcases v with ⟨a, e, n⟩
        simp [object.parsePartialResponse, hb, hpcr] at hne
  · intro he
    by_cases hg : obj.modTime ≠ 0 ∧ obj.modTime ≠ rsp.lastModified
    · simp [object.parseFullResponse, hg] at he
    · cases hb : rsp.bodyErr with
      | true => simp [object.parseFullResponse, hg, hb]
      | false => simp [object.parseFullResponse, hg, hb] at he
  · intro a b he
    by_cases hg : obj.modTime ≠ 0 ∧ obj.modTime ≠ rsp.lastModified
    · simp [object.parseFullResponse, hg]
    · cases hb : rsp.bodyErr with
      | true => simp [object.parseFullResponse, hg, hb] at he
      | false => simp [object.parseFullResponse, hg, hb] at he

theorem C2_failure_frame_witness :
    ((1 : Int) ≠ 0) ∧ ((3 : Int) ≠ 0) ∧
    ({ buf := [4, 5, 6], bufLen := 1, name := [], dlOffset := 3, size := 9,
       modTime := 2, rOffset := 0, completelyLoaded := false } : object).fillChunk
        (fun _ _ _ => .error 500) false
      = ({ buf := [4, 5, 6], bufLen := 1, name := [], dlOffset := 3, size := 9,
           modTime := 2, rOffset := 0, completelyLoaded := false },
         some (.client 500), [([], 3, 3)]) := by
  refine ⟨by decide, by decide, ?_⟩
  exact (C2_failure_frame
    { buf := [4, 5, 6], bufLen := 1, name := [], dlOffset := 3, size := 9,
      modTime := 2, rOffset := 0, completelyLoaded := false }
    { body := [], bodyErr := false, contentLength := 0,
      contentRange := none, lastModified := 0 }
    (fun _ _ _ => .error 500) false 500).1 (by decide) (by decide) rfl

/-! ## Claim C4 -/

/-- Claim C4 fails on the code: `fillChunk` does not inspect which error
the ranged fetch returned — *any* failure with `downloadOffset == 0`
triggers the whole-object fallback, not just range-not-satisfiable.
With a store that fails every ranged request with a generic not-found
(404) but serves whole-object requests, the first `fillChunk` issues the
ranged request, swallows the 404, issues the fallback request, and
succeeds — whereas the claim requires the 404 to be propagated unchanged
with no fallback request. -/
theorem C4_counterexample :
    ((newObject 1 []).fillChunk notFoundOnRanged false).2.1 = none ∧
    ((newObject 1 []).fillChunk notFoundOnRanged false).2.2
      = [([], 0, 0), ([], -1, 0)] ∧
    ((newObject 1 []).fillChunk notFoundOnRanged false).1.completelyLoaded
      = true := by decide

/-- Claim C4, amended: when the ranged fetch fails and
`downloadOffset == 0`, `fillChunk` falls back to a whole-object fetch
whatever the error was (the error value is never inspected, so this
includes not-found and transport errors on the very first fetch); when
the ranged fetch fails at `downloadOffset != 0` the error is surfaced
as-is with no fallback request. -/
theorem C4_fillChunk_fallback (obj : object) (c : Client) (full : Bool)
    (code : Nat) (hb : obj.bufLen ≠ 0)
    (he : c obj.name obj.dlOffset
        (if full then obj.size - 1 else obj.dlOffset + obj.bufLen - 1)
      = .error code) :
    (obj.dlOffset = 0 →
      obj.fillChunk c full
        = ((obj.dl c).1, (obj.dl c).2.1,
           (obj.name, obj.dlOffset,
            if full then obj.size - 1 else obj.dlOffset + obj.bufLen - 1)
             :: (obj.dl c).2.2)) ∧
    (obj.dlOffset ≠ 0 →
      obj.fillChunk c full
        = (obj, some (.client code),
           [(obj.name, obj.dlOffset,
             if full then obj.size - 1
             else obj.dlOffset + obj.bufLen - 1)])) := by
  constructor
  · intro h0
    rw [object.fillChunk, if_neg hb]
    dsimp only
    rw [he]
    dsimp only
    rw [if_pos h0]
  · intro h0
    rw [object.fillChunk, if_neg hb]
    dsimp only
    rw [he]
    dsimp only
    rw [if_neg h0]

theorem C4_fillChunk_fallback_witness :
    ((1 : Int) ≠ 0) ∧ ((0 : Int) = 0) ∧
    (newObject 1 []).fillChunk notFoundOnRanged false
      = ({ buf := [7], bufLen := 1, name := [], dlOffset := 0, size := 1,
           modTime := 3, rOffset := 0, completelyLoaded := true },
         none, [([], 0, 0), ([], -1, 0)]) := by
  refine ⟨by decide, by decide, ?_⟩
  have h := (C4_fillChunk_fallback (newObject 1 []) notFoundOnRanged false 404
    (by decide) (by rfl)).1 (by rfl)
  rw [h]
  rfl

/-! ## Claim C5 -/

/-- Claim C5 fails on the code: a whole-object fetch (`dl` /
`parseFullResponse`) never updates `dlOffset`.  Opening a 1-byte object
with chunk size 0 (the "always fetch whole object" configuration)
performs one successful fetch, after which the buffer holds 1 byte and
`complete` is true — but `dlOffset` is still 0, violating both
`downloadOffset == len(buffer)` after a successful fetch and
`complete -> downloadOffset == size`. -/
theorem C5_counterexample :
    (OpenWithContext (honestClient [7] 3) 0 []).2.1 = none ∧
    (OpenWithContext (honestClient [7] 3) 0 []).1.completelyLoaded = true ∧
    (OpenWithContext (honestClient [7] 3) 0 []).1.dlOffset = 0 ∧
    (OpenWithContext (honestClient [7] 3) 0 []).1.buf.length = 1 ∧
    (OpenWithContext (honestClient [7] 3) 0 []).1.size = 1 := by decide

/-- Claim C5, amended: after a *ranged* fetch merged successfully by
`parsePartialResponse`, `dlOffset` equals `end + 1` from the parsed
content-range, so it equals the buffer length whenever it did before the
fetch and the response body has exactly the advertised `end + 1 -
downloadOffset` bytes; moreover on this path `complete = true` implies
`dlOffset = size`.  A *whole-object* fetch (`parseFullResponse`),
however, sets `complete` and `size` but leaves `dlOffset` untouched, so
after it `dlOffset` can differ from both the buffer length and `size`
(see the counterexample); the code never reads `dlOffset` again once
`complete` is true, so the discrepancy is invisible to callers. -/
theorem C5_cursor_invariants (obj : object) (rsp : getObjectResponse)
    (a e n : Int) :
    (rsp.bodyErr = false → parseContentRange rsp.contentRange = some (a, e, n) →
      (obj.parsePartialResponse rsp).2 = none ∧
      (obj.parsePartialResponse rsp).1.dlOffset = e + 1 ∧
      (obj.parsePartialResponse rsp).1.size = n ∧
      ((obj.parsePartialResponse rsp).1.completelyLoaded = true →
        (obj.parsePartialResponse rsp).1.dlOffset
          = (obj.parsePartialResponse rsp).1.size) ∧
      ((obj.buf.length : Int) = obj.dlOffset →
        (rsp.body.length : Int) = e + 1 - obj.dlOffset →
        ((obj.parsePartialResponse rsp).1.buf.length : Int)
          = (obj.parsePartialResponse rsp).1.dlOffset)) ∧
    ((obj.parseFullResponse rsp).2 = none →
      (obj.parseFullResponse rsp).1.dlOffset = obj.dlOffset ∧
      (obj.parseFullResponse rsp).1.completelyLoaded = true ∧
      (obj.parseFullResponse rsp).1.size = rsp.contentLength) := by
  constructor
  · intro hbody hpcr
    refine ⟨?_, ?_, ?_, ?_, ?_⟩
    · simp [object.parsePartialResponse, hbody, hpcr]
    · simp [object.parsePartialResponse, hbody, hpcr]
    · simp [object.parsePartialResponse, hbody, hpcr]
    · intro hc
      simp [object.parsePartialResponse, hbody, hpcr] at hc ⊢
      omega
    · intro hlen hblen
      simp [object.parsePartialResponse, hbody, hpcr]
      omega
  · intro hok
    by_cases hg : obj.modTime ≠ 0 ∧ obj.modTime ≠ rsp.lastModified
    · simp [object.parseFullResponse, hg] at hok
    · cases hb : rsp.bodyErr with
      | true => simp [object.parseFullResponse, hg, hb] at hok
      | false => simp [object.parseFullResponse, hg, hb]

theorem C5_cursor_invariants_witness :
    (false = false) ∧
    parseContentRange (some [98, 121, 116, 101, 115, 32, 48, 45, 48, 47, 50])
      = some (0, 0, 2) ∧
    ((newObject 1 []).parsePartialResponse
        { body := [9], bodyErr := false, contentLength := 1,
          contentRange := some [98, 121, 116, 101, 115, 32, 48, 45, 48, 47, 50],
          lastModified := 3 }).2 = none ∧
    ((newObject 1 []).parsePartialResponse
        { body := [9], bodyErr := false, contentLength := 1,
          contentRange := some [98, 121, 116, 101, 115, 32, 48, 45, 48, 47, 50],
          lastModified := 3 }).1.dlOffset = 1 := by
  have h := (C5_cursor_invariants (newObject 1 [])
    { body := [9], bodyErr := false, contentLength := 1,
      contentRange := some [98, 121, 116, 101, 115, 32, 48, 45, 48, 47, 50],
      lastModified := 3 } 0 0 2).1 rfl (by decide)
  exact ⟨rfl, by decide, h.1, h.2.1⟩

/-! ## Claim C3: sequential read equivalence

The development below proves that against an honest store, opening an
object and repeatedly calling `Read` until end-of-stream concatenates to
exactly the object's content, the same bytes a single whole-object
fetch returns. -/

theorem honestClient_ranged (C : List Nat) (t : Nat) (k : ByteStr)
    (o cnt : Int) (h0 : 0 ≤ o) (hlt : o < (C.length : Int)) (hcnt : o ≤ cnt) :
    honestClient C t k o cnt =
      .ok { body := (C.drop o.toNat).take (min cnt.toNat (C.length - 1) + 1 - o.toNat),
            bodyErr := false,
            contentLength := ((min cnt.toNat (C.length - 1) : Nat) : Int) + 1 - ((o.toNat : Nat) : Int),
            contentRange := some (renderContentRange o.toNat (min cnt.toNat (C.length - 1)) C.length),
            lastModified := t } := by
  unfold honestClient
  rw [if_pos h0, if_neg (by omega)]

theorem honestClient_out_of_range (C : List Nat) (t : Nat) (k : ByteStr)
    (o cnt : Int) (h0 : 0 ≤ o) (h : (C.length : Int) ≤ o) :
    honestClient C t k o cnt = .error rangeNotSatisfiable := by
  unfold honestClient
  rw [if_pos h0, if_pos (Or.inl h)]

theorem honestClient_whole (C : List Nat) (t : Nat) (k : ByteStr)
    (o cnt : Int) (h : o < 0) :
    honestClient C t k o cnt =
      .ok { body := C, bodyErr := false, contentLength := (C.length : Int),
            contentRange := none, lastModified := t } := by
  unfold honestClient
  rw [if_neg (by omega)]

theorem fillChunk_step (C : List Nat) (t : Nat) (s : object)
    (hcs : 1 ≤ s.bufLen) (hd0 : 0 ≤ s.dlOffset)
    (hdlt : s.dlOffset < (C.length : Int))
    (hbuf : s.buf = C.take s.dlOffset.toNat) :
    s.fillChunk (honestClient C t) false
      = ({ s with
            buf := C.take (chunkEnd C s + 1),
            dlOffset := ((chunkEnd C s : Nat) : Int) + 1,
            size := (C.length : Int),
            modTime := t,
            completelyLoaded :=
              decide (((chunkEnd C s : Nat) : Int) = (C.length : Int) - 1) },
         none, [(s.name, s.dlOffset, s.dlOffset + s.bufLen - 1)]) := by
  have hb : s.bufLen ≠ 0 := by omega
  rw [object.fillChunk, if_neg hb]
  dsimp only
  simp only [Bool.false_eq_true, if_false]
  rw [honestClient_ranged C t s.name s.dlOffset (s.dlOffset + s.bufLen - 1)
    hd0 hdlt (by omega)]
  dsimp only
  have hpcr : parseContentRange
      (some (renderContentRange s.dlOffset.toNat
        (min (s.dlOffset + s.bufLen - 1).toNat (C.length - 1)) C.length))
      = some ((s.dlOffset.toNat : Int),
          ((min (s.dlOffset + s.bufLen - 1).toNat (C.length - 1) : Nat) : Int),
          (C.length : Int)) :=
    parseContentRange_render _ _ _
  simp only [object.parsePartialResponse, hpcr]
  simp only [Bool.false_eq_true, if_false]
  rw [hbuf, ← List.take_add]
  rw [show s.dlOffset.toNat
        + (min (s.dlOffset + s.bufLen - 1).toNat (C.length - 1) + 1
            - s.dlOffset.toNat)
      = min (s.dlOffset + s.bufLen - 1).toNat (C.length - 1) + 1 from by omega]
  rfl

theorem copy_result (C : List Nat) (q : object) (blen : Nat)
    (hbufq : q.buf = C.take q.dlOffset.toNat)
    (hq0 : 0 ≤ q.rOffset) (hqd : q.rOffset < q.dlOffset)
    (hql : q.dlOffset ≤ (C.length : Int)) (hbl : 1 ≤ blen) :
    ∃ m, (q.buf.drop q.rOffset.toNat).take blen
        = (C.drop q.rOffset.toNat).take m
      ∧ ((q.buf.drop q.rOffset.toNat).take blen).length = m
      ∧ 1 ≤ m ∧ q.rOffset + (m : Int) ≤ q.dlOffset := by
  refine ⟨min blen (q.dlOffset.toNat - q.rOffset.toNat), ?_, ?_, ?_, ?_⟩
  · rw [hbufq, List.drop_take, List.take_take]
  · rw [hbufq, List.drop_take, List.take_take, List.length_take,
      List.length_drop]
    omega
  · omega
  · omega

theorem fillChunk_step_inv (C : List Nat) (t : Nat) (s : object)
    (hcs : 1 ≤ s.bufLen) (hd0 : 0 ≤ s.dlOffset)
    (hdlt : s.dlOffset < (C.length : Int))
    (hbuf : s.buf = C.take s.dlOffset.toNat) :
    ∃ s', s.fillChunk (honestClient C t) false
        = (s', none, [(s.name, s.dlOffset, s.dlOffset + s.bufLen - 1)])
      ∧ s'.buf = C.take s'.dlOffset.toNat
      ∧ s.dlOffset < s'.dlOffset
      ∧ s'.dlOffset ≤ (C.length : Int)
      ∧ s'.size = (C.length : Int)
      ∧ s'.completelyLoaded = decide (s'.dlOffset = (C.length : Int))
      ∧ s'.bufLen = s.bufLen ∧ s'.rOffset = s.rOffset
      ∧ s'.modTime = t ∧ s'.name = s.name := by
  have hle : s.dlOffset.toNat ≤ chunkEnd C s := by unfold chunkEnd; omega
  have hle2 : chunkEnd C s + 1 ≤ C.length := by unfold chunkEnd; omega
  refine ⟨_, fillChunk_step C t s hcs hd0 hdlt hbuf, ?_, ?_, ?_, rfl, ?_,
    rfl, rfl, rfl, rfl⟩
  · dsimp only
    rw [show (((chunkEnd C s : Nat) : Int) + 1).toNat = chunkEnd C s + 1
      from by omega]
  · dsimp only
    omega
  · dsimp only
    omega
  · dsimp only
    simp only [decide_eq_decide]
    omega

theorem Read_step (C : List Nat) (t : Nat) (cs : Int) (blen : Nat) (s : object)
    (inv : ReaderInv C t cs s) (hcs : 1 ≤ cs) (hblen : 1 ≤ blen)
    (hr : s.rOffset < s.size) :
    ∃ s2 m tr, s.Read (honestClient C t) blen
        = (s2, .ok ((C.drop s.rOffset.toNat).take m), tr)
      ∧ 1 ≤ m ∧ ReaderInv C t cs s2
      ∧ s2.rOffset = s.rOffset + (m : Int) := by
  obtain ⟨hbuf, hsize, hr0, hrd, hdl, hcomp, hcsEq⟩ := inv
  have hrlen : s.rOffset < (C.length : Int) := by rw [← hsize]; exact hr
  rw [object.Read, if_neg (by omega)]
  dsimp only
  by_cases hfull : s.dlOffset = (C.length : Int)
  · -- the buffer already holds the whole object: no fetch, copy only
    have hc : s.completelyLoaded = true := by rw [hcomp]; simp [hfull]
    rw [if_neg (by simp [hc])]
    dsimp only
    obtain ⟨m, hcpy, hlen, hm1, hmle⟩ :=
      copy_result C s blen hbuf hr0 (by omega) hdl hblen
    rw [hlen, hcpy]
    exact ⟨_, m, [], rfl, hm1,
      ⟨hbuf, hsize, by dsimp only; omega, by dsimp only; omega, hdl, hcomp,
        hcsEq⟩, rfl⟩
  · -- not complete yet
    have hc : s.completelyLoaded = false := by rw [hcomp]; simp [hfull]
    have hdlt : s.dlOffset < (C.length : Int) := by omega
    rw [if_pos (by simp [hc]), if_neg (by omega)]
    have hbl : s.buf.length = s.dlOffset.toNat := by
      rw [hbuf, List.length_take]; omega
    by_cases hneed : (s.buf.length : Int) - s.rOffset < (blen : Int)
    · -- grow the buffer by one chunk, then copy
      rw [if_pos hneed]
      obtain ⟨s', hfc, hbuf2, hgrow, hdl2, hsize2, hcomp2, hcs2, hro2, -, -⟩ :=
        fillChunk_step_inv C t s (by omega) (by omega) hdlt hbuf
      rw [hfc]
      dsimp only
      obtain ⟨m, hcpy, hlen, hm1, hmle⟩ :=
        copy_result C s' blen hbuf2 (by rw [hro2]; omega)
          (by rw [hro2]; omega) hdl2 hblen
      rw [hro2] at hcpy hlen hmle ⊢
      rw [hlen, hcpy]
      exact ⟨_, m, _, rfl, hm1,
        ⟨hbuf2, hsize2, by dsimp only; omega, by dsimp only; omega, hdl2,
          hcomp2, by dsimp only; rw [hcs2, hcsEq]⟩, rfl⟩
    · -- enough is buffered already: no fetch, copy only
      rw [if_neg hneed]
      dsimp only
      obtain ⟨m, hcpy, hlen, hm1, hmle⟩ :=
        copy_result C s blen hbuf hr0 (by omega) hdl hblen
      rw [hlen, hcpy]
      exact ⟨_, m, [], rfl, hm1,
        ⟨hbuf, hsize, by dsimp only; omega, by dsimp only; omega, hdl, hcomp,
          hcsEq⟩, rfl⟩

theorem readLoop_inv (C : List Nat) (t : Nat) (cs : Int) (blen : Nat)
    (hcs : 1 ≤ cs) (hblen : 1 ≤ blen) :
    ∀ fuel s, ReaderInv C t cs s → C.length < s.rOffset.toNat + fuel →
      (readLoop (honestClient C t) blen fuel s).2
        = some (C.drop s.rOffset.toNat) := by
  intro fuel
  induction fuel with
  | zero =>
    intro s inv hf
    exfalso
    have h1 := inv.hr0
    have h2 := inv.hrd
    have h3 := inv.hdl
    omega
  | succ f ih =>
    intro s inv hf
    by_cases hr : s.rOffset ≥ s.size
    · have hsz := inv.hsize
      rw [show C.drop s.rOffset.toNat = [] from
        List.drop_eq_nil_of_le (by omega)]
      simp only [readLoop, Read_at_or_past_size _ _ _ hr]
    · obtain ⟨s2, m, tr, hread, hm1, inv2, hro⟩ :=
        Read_step C t cs blen s inv hcs hblen (by omega)
      have hs2r : s2.rOffset.toNat = s.rOffset.toNat + m := by
        have h1 := inv.hr0
        omega
      have ih2 := ih s2 inv2 (by omega)
      rw [hs2r] at ih2
      simp only [readLoop, hread]
      rcases hloop : readLoop (honestClient C t) blen f s2 with ⟨o2, res⟩
      rw [hloop] at ih2
      dsimp only at ih2
      subst ih2
      dsimp only
      rw [← List.drop_drop, List.take_append_drop]

theorem open_inv (C : List Nat) (t : Nat) (cs : Int) (name : ByteStr)
    (hcs : 1 ≤ cs) :
    ∃ s0 tr, OpenWithContext (honestClient C t) cs name = (s0, none, tr)
      ∧ ReaderInv C t cs s0 ∧ s0.rOffset = 0 := by
  by_cases hC : C = []
  · -- empty object: the ranged open request gets 416, the fallback
    -- whole-object fetch succeeds with an empty body
    subst hC
    simp only [OpenWithContext, newObject]
    rw [object.fillChunk]
    dsimp only
    rw [if_neg (show ¬cs = 0 by omega)]
    simp only [Bool.false_eq_true, if_false]
    rw [honestClient_out_of_range ([] : List Nat) t name 0 (0 + cs - 1)
      (by omega) (by simp)]
    dsimp only
    simp only [if_true]
    rw [object.dl]
    dsimp only
    rw [honestClient_whole ([] : List Nat) t name (-1) 0 (by omega)]
    dsimp only
    rw [object.parseFullResponse]
    rw [if_neg (by simp)]
    dsimp only
    simp only [Bool.false_eq_true, if_false]
    refine ⟨_, _, rfl, ?_, rfl⟩
    exact ⟨by simp, by simp, by dsimp only; omega, by dsimp only; omega,
      by simp, by simp, rfl⟩
  · have hlen1 : 1 ≤ C.length := by
      have := List.length_pos.mpr hC
      omega
    obtain ⟨s', hfc, hbuf2, hgrow, hdl2, hsize2, hcomp2, hcs2, hro2, -, -⟩ :=
      fillChunk_step_inv C t (newObject cs name) hcs (le_refl 0)
        (by simpa [newObject] using hlen1) (by simp [newObject])
    refine ⟨s', _, hfc, ?_, hro2⟩
    refine ⟨hbuf2, hsize2, ?_, ?_, hdl2, hcomp2, hcs2⟩
    · rw [hro2]
      simp [newObject]
    · rw [hro2]
      have h1 : (newObject cs name).dlOffset = 0 := rfl
      have h2 : (newObject cs name).rOffset = 0 := rfl
      omega

theorem ReadFile_honest (C : List Nat) (t : Nat) (cs : Int) (name : ByteStr) :
    (ReadFileWithContext (honestClient C t) cs name).1 = .ok C := by
  simp only [ReadFileWithContext, newObject]
  rw [object.dl]
  dsimp only
  rw [honestClient_whole C t name (-1) 0 (by omega)]
  dsimp only
  rw [object.parseFullResponse]
  rw [if_neg (by simp)]
  dsimp only
  simp only [Bool.false_eq_true, if_false, List.nil_append]

/-! ## Claim C3 -/

/-- Claim C3: against an honest store holding content `C`, for every
chunk size `cs >= 1` and destination size `blen >= 1`, opening the
object succeeds and repeatedly calling `Read` until end-of-stream
(`fuel > |C|` iterations suffice: every `Read` before the end returns at
least one byte) concatenates to exactly `C` — the same byte sequence a
single whole-object fetch (`ReadFile` / `dl`) returns. -/
theorem C3_sequential_read_equivalence (C : List Nat) (t : Nat) (cs : Int)
    (blen fuel : Nat) (name : ByteStr)
    (hcs : 1 ≤ cs) (hblen : 1 ≤ blen) (hfuel : C.length < fuel) :
    (OpenWithContext (honestClient C t) cs name).2.1 = none ∧
    (readLoop (honestClient C t) blen fuel
        (OpenWithContext (honestClient C t) cs name).1).2 = some C ∧
    (ReadFileWithContext (honestClient C t) cs name).1 = .ok C := by
  obtain ⟨s0, tr, hopen, inv0, hr00⟩ := open_inv C t cs name hcs
  rw [hopen]
  refine ⟨rfl, ?_, ReadFile_honest C t cs name⟩
  dsimp only
  rw [readLoop_inv C t cs blen hcs hblen fuel s0 inv0 (by rw [hr00]; simpa)]
  rw [hr00]
  simp

theorem C3_sequential_read_equivalence_witness :
    (1 : Int) ≤ 1 ∧ 1 ≤ 1 ∧ [104, 105].length < 3 ∧
    ((OpenWithContext (honestClient [104, 105] 1) 1 []).2.1 = none ∧
     (readLoop (honestClient [104, 105] 1) 1 3
        (OpenWithContext (honestClient [104, 105] 1) 1 []).1).2
       = some [104, 105] ∧
     (ReadFileWithContext (honestClient [104, 105] 1) 1 []).1
       = .ok [104, 105]) :=
  ⟨by decide, by decide, by decide,
   C3_sequential_read_equivalence [104, 105] 1 1 1 3 []
     (by decide) (by decide) (by decide)⟩
